import Mathlib

/-!
Shallow embedding of the `mindset` typed state-machine execution engine
(core data model, execution engine, enforcement subsystem and checkpoint
subsystem), together with theorems settling the specification claims.

Conventions of the embedding:
* Rust `usize`/`u32` counters are modelled as `Nat` (no overflow is relevant
  to any claim: all counters only grow by small increments).
* `chrono::DateTime<Utc>` instants and `std::time::Duration` values are
  modelled as `Nat` ticks; every operation that reads the wall clock
  (`Utc::now()`) takes the current instant as an explicit `now` argument.
* The `stillwater` effect `BoxedEffect<T, E, Env>` is modelled by its
  synchronous semantics `Env → Except E T`; `Effect::map` is `Except.map`
  on the result of running the effect.
* Rust's `&self` methods are pure functions on immutable values here, just
  as the source never mutates through shared references.
-/

namespace Mindset

/-- Capability set of a state value, mirroring the `State` trait of
`core/state.rs`: a display name, finality and error-ness (both defaulted
to false in the trait). -/
class State (S : Type) where
  name : S → String
  is_final : S → Bool := fun _ => false
  is_error : S → Bool := fun _ => false

/-- Record of a single state transition, mirroring `StateTransition` of
`core/history.rs`. The Rust field `from` is a Lean keyword, so it is
spelled `from_` here. -/
structure StateTransition (S : Type) where
  from_ : S
  to_ : S
  timestamp : Nat
  attempt : Nat
deriving DecidableEq

/-- Ordered history of state transitions, mirroring `StateHistory` of
`core/history.rs` (a wrapper around `Vec<StateTransition<S>>`). -/
structure StateHistory (S : Type) where
  transitions : List (StateTransition S)
deriving DecidableEq

/-- Empty history, mirroring `StateHistory::new`. -/
def StateHistory.new {S : Type} : StateHistory S :=
  ⟨[]⟩

/-- Record a transition, returning a new history, mirroring
`StateHistory::record`: the source clones the vector and pushes the new
transition, leaving the receiver untouched. -/
def StateHistory.record {S : Type} (h : StateHistory S) (t : StateTransition S) :
    StateHistory S :=
  ⟨h.transitions ++ [t]⟩

/-- Path of states traversed, mirroring `StateHistory::get_path`: the source
pushes `first.from` only when a first transition exists, then pushes every
transition's `to`. -/
def StateHistory.get_path {S : Type} (h : StateHistory S) : List S :=
  (match h.transitions with
   | [] => []
   | first :: _ => [first.from_]) ++ h.transitions.map (fun t => t.to_)

/-- Pure guard predicate, mirroring `Guard` of `core/guard.rs`. -/
structure Guard (S : Type) where
  check : S → Bool

/-- Result of executing a transition action, mirroring `TransitionResult`
of `effects/transition.rs`. -/
inductive TransitionResult (S : Type) where
  | Success (new_state : S)
  | Retry (feedback : String) (current_state : S)
  | Abort (reason : String) (error_state : S)

/-- Errors that can occur during transitions, mirroring `TransitionError`
of `effects/transition.rs`. -/
inductive TransitionError where
  | NoTransition (from_ : String)
  | GuardBlocked (from_ : String) (to_ : String)
  | ActionFailed (detail : String)
deriving DecidableEq

/-- A transition with an effectful action, mirroring `Transition` of
`effects/transition.rs`. The action is a factory (`Arc<dyn Fn() -> BoxedEffect>`)
that yields a fresh effect per invocation; an effect is modelled by its
run function `Env → Except TransitionError (TransitionResult S)`. -/
structure Transition (S Env : Type) where
  from_ : S
  to_ : S
  guard : Option (Guard S)
  action : Unit → Env → Except TransitionError (TransitionResult S)

/-- Check whether the transition can execute from the current state,
mirroring `Transition::can_execute`: the state must equal `from` and the
guard, if present, must accept the current state (`is_none_or`). -/
def Transition.can_execute {S Env : Type} [DecidableEq S]
    (t : Transition S Env) (current : S) : Bool :=
  if current ≠ t.from_ then
    false
  else
    match t.guard with
    | none => true
    | some g => g.check current

/-- Result of executing a single step, mirroring `StepResult` of
`effects/machine.rs`. -/
inductive StepResult (S : Type) where
  | Transitioned (new_state : S)
  | Retry (feedback : String) (attempts : Nat)
  | Aborted (reason : String) (error_state : S)

/-- Metadata tracked by the state machine, mirroring `MachineMetadata` of
`checkpoint/mod.rs`; the `HashMap<String, usize>` of per-transition attempt
totals is modelled as an association list. -/
structure MachineMetadata where
  created_at : Nat
  updated_at : Nat
  current_attempt : Nat
  total_attempts : List (String × Nat)
deriving DecidableEq

/-- Default metadata, mirroring `MachineMetadata::default` (both timestamps
are the creation instant). -/
def MachineMetadata.mkDefault (now : Nat) : MachineMetadata :=
  ⟨now, now, 0, []⟩

/-- Version identifier for the checkpoint format, mirroring
`CHECKPOINT_VERSION` of `checkpoint/mod.rs`. -/
def CHECKPOINT_VERSION : Nat := 1

/-- Serializable checkpoint of machine state, mirroring `Checkpoint` of
`checkpoint/mod.rs`; transitions are deliberately absent. -/
structure Checkpoint (S : Type) where
  version : Nat
  id : String
  timestamp : Nat
  initial_state : S
  current_state : S
  history : StateHistory S
  metadata : MachineMetadata

/-- Checkpoint subsystem errors, mirroring `CheckpointError` of
`checkpoint/error.rs`. -/
inductive CheckpointError where
  | SerializationFailed (detail : String)
  | DeserializationFailed (detail : String)
  | UnsupportedVersion (found : Nat) (supported : Nat)
  | ValidationFailed (detail : String)
deriving DecidableEq

/-- The state machine, mirroring `StateMachine` of `effects/machine.rs`. -/
structure StateMachine (S Env : Type) where
  initial : S
  current : S
  transitions : List (Transition S Env)
  history : StateHistory S
  attempt_count : Nat
  metadata : MachineMetadata

/-- Fresh machine in the initial state, mirroring `StateMachine::new`
(metadata defaults are stamped with the construction instant). -/
def StateMachine.new {S Env : Type} (initial : S) (now : Nat) : StateMachine S Env :=
  ⟨initial, initial, [], StateHistory.new, 0, MachineMetadata.mkDefault now⟩

/-- Current state accessor, mirroring `StateMachine::current_state`. -/
def StateMachine.current_state {S Env : Type} (m : StateMachine S Env) : S :=
  m.current

/-- Classification of an action's result into a step result, mirroring the
`match` inside `StateMachine::step`: the captured `attempt_count` feeds the
`attempts = attempt_count + 1` of a retry. -/
def classifyResult {S : Type} (attempt_count : Nat) :
    TransitionResult S → StepResult S
  | .Success new_state => .Transitioned new_state
  | .Retry feedback _ => .Retry feedback (attempt_count + 1)
  | .Abort reason error_state => .Aborted reason error_state

/-- Execute one step, mirroring `StateMachine::step` run against an
environment: find the first transition that can execute from the current
state (declaration order); if none exists fail with `NoTransition`,
otherwise obtain a fresh effect from the action factory, run it, and map
its result together with the captured from-state and attempt count. -/
def StateMachine.step {S Env : Type} [DecidableEq S] [State S]
    (m : StateMachine S Env) (env : Env) :
    Except TransitionError (S × StepResult S × Nat) :=
  match m.transitions.find? (fun t => t.can_execute m.current) with
  | none => .error (.NoTransition (State.name m.current))
  | some t =>
    Except.map
      (fun result => (m.current, classifyResult m.attempt_count result, m.attempt_count))
      (t.action () env)

/-- Bump the per-transition attempt total, mirroring
`*metadata.total_attempts.entry(name).or_insert(0) += 1` on the
association-list model of the hash map. -/
def bumpTotal (l : List (String × Nat)) (k : String) : List (String × Nat) :=
  if l.any (fun p => p.1 == k) then
    l.map (fun p => if p.1 == k then (p.1, p.2 + 1) else p)
  else
    l ++ [(k, 1)]

/-- Metadata update after a committed transition, mirroring
`StateMachine::update_metadata`. -/
def StateMachine.update_metadata {S Env : Type} (m : StateMachine S Env)
    (transition_name : String) (now : Nat) : StateMachine S Env :=
  { m with
    metadata :=
      { m.metadata with
        updated_at := now
        total_attempts := bumpTotal m.metadata.total_attempts transition_name } }

/-- Apply a step result to the machine, mirroring
`StateMachine::apply_result`: a `Transitioned` result appends a history
record stamped with the commit instant, moves to the new state, resets the
attempt count and updates metadata; a `Retry` only increments the attempt
count; an `Aborted` only moves to the error state. -/
def StateMachine.apply_result {S Env : Type} [State S] (m : StateMachine S Env)
    (from_state : S) (result : StepResult S) (attempt_count : Nat) (now : Nat) :
    StateMachine S Env :=
  match result with
  | .Transitioned new_state =>
    let transition_record : StateTransition S :=
      ⟨from_state, new_state, now, attempt_count⟩
    let committed :=
      { m with
        history := m.history.record transition_record
        current := new_state
        attempt_count := 0 }
    committed.update_metadata (State.name from_state) now
  | .Retry _ _ => { m with attempt_count := m.attempt_count + 1 }
  | .Aborted _ error_state => { m with current := error_state }

/-- One step-and-commit cycle the way every caller in the repository drives
the machine (`machine.step().run(&env)` followed by `apply_result` on
success): on a step error the machine value is left untouched and the error
is reported. -/
def StateMachine.step_and_apply {S Env : Type} [DecidableEq S] [State S]
    (m : StateMachine S Env) (env : Env) (now : Nat) :
    StateMachine S Env × Option TransitionError :=
  match m.step env with
  | .error e => (m, some e)
  | .ok (from_state, result, attempt_count) =>
    (m.apply_result from_state result attempt_count now, none)

/-- Violation errors of the enforcement subsystem, mirroring
`ViolationError` of `enforcement/violations.rs`; durations are `Nat` ticks. -/
inductive ViolationError where
  | MaxAttemptsExceeded (max : Nat) (current : Nat)
  | TimeoutExceeded (timeout : Nat) (elapsed : Nat)
  | CustomCheckFailed (message : String)
deriving DecidableEq

/-- Strategy for handling enforcement violations, mirroring
`ViolationStrategy` of `enforcement/violations.rs`. -/
inductive ViolationStrategy where
  | Abort
  | Retry
  | IgnoreAndLog
deriving DecidableEq

/-- Accumulating validation result, mirroring `stillwater::validation::Validation`
(an external dependency of the enforcement subsystem): either a success
value or a collection of failures. The `NonEmptyVec` of failures is
modelled as a plain list; the engine only ever builds non-empty ones. -/
inductive Validation (ε α : Type) where
  | success (x : α)
  | failure (errs : ε)
deriving DecidableEq

/-- Single-error failure, mirroring `Validation::fail` building a singleton
`NonEmptyVec`. -/
def Validation.fail {ε α : Type} (err : ε) : Validation (List ε) α :=
  .failure [err]

/-- Map over the success value, mirroring `Validation::map`. -/
def Validation.map {ε α β : Type} (f : α → β) :
    Validation ε α → Validation ε β
  | .success x => .success (f x)
  | .failure errs => .failure errs

/-- One accumulation step of `Validation::all_vec`: combine the next
validation with the accumulation of the rest, concatenating failures. -/
def Validation.combine {ε α : Type} (v : Validation (List ε) α)
    (rest : Validation (List ε) (List α)) : Validation (List ε) (List α) :=
  match v, rest with
  | .success x, .success xs => .success (x :: xs)
  | .success _, .failure errs => .failure errs
  | .failure errs, .success _ => .failure errs
  | .failure errs, .failure errs2 => .failure (errs ++ errs2)

/-- Applicative accumulation over a list of validations, mirroring
`Validation::all_vec` of the `stillwater` dependency: succeed with the list
of values when every element succeeds, otherwise fail with every failure
concatenated in order. -/
def Validation.all_vec {ε α : Type} :
    List (Validation (List ε) α) → Validation (List ε) (List α)
  | [] => .success []
  | v :: vs => Validation.combine v (Validation.all_vec vs)

/-- Read-only context passed to enforcement checks, mirroring
`TransitionContext` of `enforcement/context.rs`. -/
structure TransitionContext (S : Type) where
  from_ : S
  to_ : S
  attempt : Nat
  started_at : Nat

/-- Elapsed time since the transition started, mirroring
`TransitionContext::elapsed`: the source computes `now - started_at` and
floors negative results at zero, which truncated `Nat` subtraction does. -/
def TransitionContext.elapsed {S : Type} (ctx : TransitionContext S) (now : Nat) : Nat :=
  now - ctx.started_at

/-- Enforcement rules attached to a transition, mirroring
`EnforcementRules` of `enforcement/rules.rs`; each required check is a
validation function over the context. -/
structure EnforcementRules (S : Type) where
  max_attempts : Option Nat
  timeout : Option Nat
  required_checks : List (TransitionContext S → Validation (List ViolationError) Unit)
  on_violation : ViolationStrategy

/-- Check vector built by `EnforcementRules::enforce` before accumulation:
the max-attempts check when configured, then the timeout check when
configured, then every custom check in registration order (the source
pushes them onto a `Vec` in exactly this order). -/
def enforceChecks {S : Type} (r : EnforcementRules S)
    (context : TransitionContext S) (now : Nat) :
    List (Validation (List ViolationError) Unit) :=
  (match r.max_attempts with
   | some max =>
     [if context.attempt > max then
       Validation.fail (.MaxAttemptsExceeded max context.attempt)
     else
       .success ()]
   | none => []) ++
  (match r.timeout with
   | some timeout =>
     [if context.elapsed now > timeout then
       Validation.fail (.TimeoutExceeded timeout (context.elapsed now))
     else
       .success ()]
   | none => []) ++
  r.required_checks.map (fun check_fn => check_fn context)

/-- Enforce all rules, mirroring `EnforcementRules::enforce`: build the
check vector, then accumulate every failure with `all_vec` and forget the
unit values on success. -/
def EnforcementRules.enforce {S : Type} (r : EnforcementRules S)
    (context : TransitionContext S) (now : Nat) :
    Validation (List ViolationError) Unit :=
  (Validation.all_vec (enforceChecks r context now)).map (fun _ => ())

/-- Failures contributed by one validation value (empty for a success). -/
def Validation.failures {ε α : Type} : Validation (List ε) α → List ε
  | .success _ => []
  | .failure errs => errs

/-- Concatenation, in order, of the failures of a list of validations. -/
def failuresOf {ε α : Type} (vs : List (Validation (List ε) α)) : List ε :=
  vs.foldr (fun v acc => v.failures ++ acc) []

/-- Well-formedness of a validation value: a failure carries at least one
error, as `NonEmptyVec` guarantees in the source. -/
def Validation.wf {ε α : Type} : Validation (List ε) α → Prop
  | .success _ => True
  | .failure errs => errs ≠ []

/-- The exact list of violations the specification says `enforce` must
report, in declaration order: the built-in max-attempts violation when
configured and exceeded, then the built-in timeout violation when
configured and exceeded, then the failures of every custom check in
registration order. -/
def declaredViolations {S : Type} (r : EnforcementRules S)
    (context : TransitionContext S) (now : Nat) : List ViolationError :=
  (match r.max_attempts with
   | some max =>
     if context.attempt > max then [.MaxAttemptsExceeded max context.attempt] else []
   | none => []) ++
  (match r.timeout with
   | some timeout =>
     if context.elapsed now > timeout then
       [.TimeoutExceeded timeout (context.elapsed now)]
     else []
   | none => []) ++
  failuresOf (r.required_checks.map (fun check_fn => check_fn context))

/-- Self-describing text value tree. This models the JSON document
produced by `serde_json` for a checkpoint (`StateMachine::to_json` in the
source delegates serialization of the checkpoint structure to the derived
`Serialize` instance); objects keep their fields in declaration order. -/
inductive Jv where
  | num (n : Nat)
  | str (s : String)
  | arr (xs : List Jv)
  | obj (fields : List (String × Jv))

/-- JSON encoding of one history record, field for field in declaration
order, with the state encoding supplied by the caller (serde's `S: Serialize`
bound). -/
def encodeTransitionJ {S : Type} (encS : S → Jv) (t : StateTransition S) : Jv :=
  .obj [("from", encS t.from_), ("to", encS t.to_),
        ("timestamp", .num t.timestamp), ("attempt", .num t.attempt)]

/-- JSON decoding of one history record, accepting exactly the shape the
encoder produces. -/
def decodeTransitionJ {S : Type} (decS : Jv → Option S) :
    Jv → Option (StateTransition S)
  | .obj [("from", jf), ("to", jt), ("timestamp", .num ts), ("attempt", .num a)] =>
    match decS jf, decS jt with
    | some f, some t => some ⟨f, t, ts, a⟩
    | _, _ => none
  | _ => none

/-- JSON decoding of a list of history records. -/
def decodeTransitionListJ {S : Type} (decS : Jv → Option S) :
    List Jv → Option (List (StateTransition S))
  | [] => some []
  | j :: rest =>
    match decodeTransitionJ decS j, decodeTransitionListJ decS rest with
    | some t, some ts => some (t :: ts)
    | _, _ => none

/-- JSON encoding of a history as the array of its records. -/
def encodeHistoryJ {S : Type} (encS : S → Jv) (h : StateHistory S) : Jv :=
  .arr (h.transitions.map (encodeTransitionJ encS))

/-- JSON decoding of a history. -/
def decodeHistoryJ {S : Type} (decS : Jv → Option S) : Jv → Option (StateHistory S)
  | .arr js =>
    match decodeTransitionListJ decS js with
    | some ts => some ⟨ts⟩
    | none => none
  | _ => none

/-- JSON encoding of the per-transition attempt totals map. -/
def encodeTotalsJ (l : List (String × Nat)) : Jv :=
  .obj (l.map (fun p => (p.1, Jv.num p.2)))

/-- JSON decoding of the attempt totals map entries. -/
def decodeTotalsEntries : List (String × Jv) → Option (List (String × Nat))
  | [] => some []
  | (k, .num v) :: rest =>
    match decodeTotalsEntries rest with
    | some l => some ((k, v) :: l)
    | none => none
  | _ => none

/-- JSON decoding of the attempt totals map. -/
def decodeTotalsJ : Jv → Option (List (String × Nat))
  | .obj fields => decodeTotalsEntries fields
  | _ => none

/-- JSON encoding of machine metadata, field for field. -/
def encodeMetadataJ (md : MachineMetadata) : Jv :=
  .obj [("created_at", .num md.created_at), ("updated_at", .num md.updated_at),
        ("current_attempt", .num md.current_attempt),
        ("total_attempts", encodeTotalsJ md.total_attempts)]

/-- JSON decoding of machine metadata. -/
def decodeMetadataJ : Jv → Option MachineMetadata
  | .obj [("created_at", .num c), ("updated_at", .num u),
          ("current_attempt", .num ca), ("total_attempts", jt)] =>
    match decodeTotalsJ jt with
    | some l => some ⟨c, u, ca, l⟩
    | none => none
  | _ => none

/-- JSON encoding of a checkpoint envelope, field for field in declaration
order: version, id, timestamp, initial_state, current_state, history,
metadata. -/
def encodeCheckpointJ {S : Type} (encS : S → Jv) (cp : Checkpoint S) : Jv :=
  .obj [("version", .num cp.version), ("id", .str cp.id),
        ("timestamp", .num cp.timestamp),
        ("initial_state", encS cp.initial_state),
        ("current_state", encS cp.current_state),
        ("history", encodeHistoryJ encS cp.history),
        ("metadata", encodeMetadataJ cp.metadata)]

/-- JSON decoding of a checkpoint envelope. -/
def decodeCheckpointJ {S : Type} (decS : Jv → Option S) : Jv → Option (Checkpoint S)
  | .obj [("version", .num v), ("id", .str id), ("timestamp", .num ts),
          ("initial_state", ji), ("current_state", jc),
          ("history", jh), ("metadata", jm)] =>
    match decS ji, decS jc, decodeHistoryJ decS jh, decodeMetadataJ jm with
    | some i, some c, some h, some md => some ⟨v, id, ts, i, c, h, md⟩
    | _, _, _, _ => none
  | _ => none

/-- Compact binary stream modelling the `bincode` wire format as a flat
token list; strings are length-prefixed, lists are count-prefixed. -/
def encString (s : String) : List Nat :=
  s.length :: s.data.map Char.toNat

/-- Read one number token. -/
def readNat : List Nat → Option (Nat × List Nat)
  | [] => none
  | n :: rest => some (n, rest)

/-- Read one length-prefixed string. -/
def readString (bs : List Nat) : Option (String × List Nat) :=
  match readNat bs with
  | none => none
  | some (n, rest) =>
    if n ≤ rest.length then
      some (String.mk ((rest.take n).map Char.ofNat), rest.drop n)
    else
      none

/-- Binary encoding of one history record. -/
def encTransitionB {S : Type} (encB : S → List Nat) (t : StateTransition S) : List Nat :=
  encB t.from_ ++ encB t.to_ ++ [t.timestamp, t.attempt]

/-- Read one history record. -/
def readTransitionB {S : Type} (readS : List Nat → Option (S × List Nat))
    (bs : List Nat) : Option (StateTransition S × List Nat) :=
  match readS bs with
  | none => none
  | some (f, bs1) =>
    match readS bs1 with
    | none => none
    | some (t, bs2) =>
      match readNat bs2 with
      | none => none
      | some (ts, bs3) =>
        match readNat bs3 with
        | none => none
        | some (a, bs4) => some (⟨f, t, ts, a⟩, bs4)

/-- Binary encoding of a count of records. -/
def encListBody {α : Type} (enc1 : α → List Nat) : List α → List Nat
  | [] => []
  | x :: xs => enc1 x ++ encListBody enc1 xs

/-- Count-prefixed binary encoding of a list. -/
def encListB {α : Type} (enc1 : α → List Nat) (xs : List α) : List Nat :=
  xs.length :: encListBody enc1 xs

/-- Read a known count of records. -/
def readCount {α : Type} (read1 : List Nat → Option (α × List Nat)) :
    Nat → List Nat → Option (List α × List Nat)
  | 0, bs => some ([], bs)
  | n + 1, bs =>
    match read1 bs with
    | none => none
    | some (x, bs1) =>
      match readCount read1 n bs1 with
      | none => none
      | some (xs, bs2) => some (x :: xs, bs2)

/-- Read a count-prefixed list. -/
def readListB {α : Type} (read1 : List Nat → Option (α × List Nat))
    (bs : List Nat) : Option (List α × List Nat) :=
  match readNat bs with
  | none => none
  | some (n, rest) => readCount read1 n rest

/-- Binary encoding of one attempt-totals entry. -/
def encTotalB (p : String × Nat) : List Nat :=
  encString p.1 ++ [p.2]

/-- Read one attempt-totals entry. -/
def readTotalB (bs : List Nat) : Option ((String × Nat) × List Nat) :=
  match readString bs with
  | none => none
  | some (k, bs1) =>
    match readNat bs1 with
    | none => none
    | some (v, bs2) => some ((k, v), bs2)

/-- Binary encoding of machine metadata. -/
def encMetadataB (md : MachineMetadata) : List Nat :=
  [md.created_at, md.updated_at, md.current_attempt] ++ encListB encTotalB md.total_attempts

/-- Read machine metadata. -/
def readMetadataB (bs : List Nat) : Option (MachineMetadata × List Nat) :=
  match readNat bs with
  | none => none
  | some (c, bs1) =>
    match readNat bs1 with
    | none => none
    | some (u, bs2) =>
      match readNat bs2 with
      | none => none
      | some (ca, bs3) =>
        match readListB readTotalB bs3 with
        | none => none
        | some (l, bs4) => some (⟨c, u, ca, l⟩, bs4)

/-- Binary encoding of a checkpoint envelope, fields in declaration
order. -/
def encCheckpointB {S : Type} (encB : S → List Nat) (cp : Checkpoint S) : List Nat :=
  cp.version :: encString cp.id ++ [cp.timestamp] ++
    encB cp.initial_state ++ encB cp.current_state ++
    encListB (encTransitionB encB) cp.history.transitions ++
    encMetadataB cp.metadata

/-- Read a checkpoint envelope. -/
def readCheckpointB {S : Type} (readS : List Nat → Option (S × List Nat))
    (bs : List Nat) : Option (Checkpoint S × List Nat) :=
  match readNat bs with
  | none => none
  | some (v, bs1) =>
    match readString bs1 with
    | none => none
    | some (id, bs2) =>
      match readNat bs2 with
      | none => none
      | some (ts, bs3) =>
        match readS bs3 with
        | none => none
        | some (i, bs4) =>
          match readS bs4 with
          | none => none
          | some (c, bs5) =>
            match readListB (readTransitionB readS) bs5 with
            | none => none
            | some (trs, bs6) =>
              match readMetadataB bs6 with
              | none => none
              | some (md, bs7) => some (⟨v, id, ts, i, c, ⟨trs⟩, md⟩, bs7)

/-- Checkpoint projection of a machine, mirroring `StateMachine::checkpoint`;
the fresh UUID and the wall-clock timestamp are taken as arguments. -/
def StateMachine.checkpoint {S Env : Type} (m : StateMachine S Env)
    (id : String) (now : Nat) : Checkpoint S :=
  ⟨CHECKPOINT_VERSION, id, now, m.initial, m.current, m.history, m.metadata⟩

/-- Restore a machine from a checkpoint with freshly supplied transitions,
mirroring `StateMachine::from_checkpoint`: versions newer than the
supported one are rejected with `UnsupportedVersion`; otherwise every field
of the snapshot is taken verbatim and the attempt count starts at zero. -/
def StateMachine.from_checkpoint {S Env : Type} (checkpoint : Checkpoint S)
    (transitions : List (Transition S Env)) :
    Except CheckpointError (StateMachine S Env) :=
  if checkpoint.version > CHECKPOINT_VERSION then
    .error (.UnsupportedVersion checkpoint.version CHECKPOINT_VERSION)
  else
    .ok ⟨checkpoint.initial_state, checkpoint.current_state, transitions,
         checkpoint.history, 0, checkpoint.metadata⟩

/-- Serialize to the text form, mirroring `StateMachine::to_json`
(checkpoint projection followed by the derived serializer). -/
def StateMachine.to_json {S Env : Type} (encS : S → Jv) (m : StateMachine S Env)
    (id : String) (now : Nat) : Jv :=
  encodeCheckpointJ encS (m.checkpoint id now)

/-- Deserialize from the text form, mirroring `StateMachine::from_json`:
decode the checkpoint, then restore through `from_checkpoint`. -/
def StateMachine.from_json {S Env : Type} (decS : Jv → Option S) (j : Jv)
    (transitions : List (Transition S Env)) :
    Except CheckpointError (StateMachine S Env) :=
  match decodeCheckpointJ decS j with
  | none => .error (.DeserializationFailed "invalid checkpoint document")
  | some cp => StateMachine.from_checkpoint cp transitions

/-- Serialize to the binary form, mirroring `StateMachine::to_binary`. -/
def StateMachine.to_binary {S Env : Type} (encB : S → List Nat)
    (m : StateMachine S Env) (id : String) (now : Nat) : List Nat :=
  encCheckpointB encB (m.checkpoint id now)

/-- Deserialize from the binary form, mirroring `StateMachine::from_binary`. -/
def StateMachine.from_binary {S Env : Type}
    (readS : List Nat → Option (S × List Nat)) (bs : List Nat)
    (transitions : List (Transition S Env)) :
    Except CheckpointError (StateMachine S Env) :=
  match readCheckpointB readS bs with
  | none => .error (.DeserializationFailed "invalid checkpoint bytes")
  | some (cp, _) => StateMachine.from_checkpoint cp transitions

/-- Demo state space used for concrete scenarios and witnesses. -/
inductive TState where
  | A
  | B
  | C
deriving DecidableEq

instance : State TState where
  name := fun s =>
    match s with
    | .A => "A"
    | .B => "B"
    | .C => "C"

/-- Add a transition, mirroring `StateMachine::add_transition` (a push onto
the ordered collection). -/
def StateMachine.add_transition {S Env : Type} (m : StateMachine S Env)
    (t : Transition S Env) : StateMachine S Env :=
  { m with transitions := m.transitions ++ [t] }

/-- Demo transition A to B whose action always returns `Success(B)`. -/
def tAB : Transition TState Unit :=
  ⟨TState.A, TState.B, none, fun _ _ => .ok (.Success TState.B)⟩

/-- Demo machine at state A with the single always-succeeding transition. -/
def mAB : StateMachine TState Unit :=
  (StateMachine.new TState.A 0).add_transition tAB

/-- Demo transition whose action always asks for a retry. -/
def tRetryDemo : Transition TState Unit :=
  ⟨TState.A, TState.B, none, fun _ _ => .ok (.Retry "Not ready yet" TState.A)⟩

/-- Demo machine at state A with the single always-retrying transition. -/
def mRetryDemo : StateMachine TState Unit :=
  (StateMachine.new TState.A 0).add_transition tRetryDemo

/-- Demo machine that has already accumulated two retry attempts. -/
def mTwoAttempts : StateMachine TState Unit :=
  { mAB with attempt_count := 2 }

/-- Demo enforcement rules of the specification scenario: max three
attempts, a five-tick timeout, and one always-failing custom check. -/
def scenarioRules : EnforcementRules TState :=
  ⟨some 3, some 5,
   [fun _ => Validation.fail (.CustomCheckFailed "Custom check always fails")],
   .Abort⟩

/-- Demo context of the specification scenario: attempt five, started at
tick zero (so ten ticks have elapsed at instant ten). -/
def scenarioCtx : TransitionContext TState :=
  ⟨TState.A, TState.B, 5, 0⟩

/-- Demo checkpoint carrying an unsupported (newer) version. -/
def cpNewer : Checkpoint TState :=
  ⟨999, "cp-id", 0, TState.A, TState.A, StateHistory.new, MachineMetadata.mkDefault 0⟩

/-- Demo checkpoint at the supported version. -/
def cpCurrent : Checkpoint TState :=
  ⟨CHECKPOINT_VERSION, "cp-id", 0, TState.A, TState.B,
   ⟨[⟨TState.A, TState.B, 3, 0⟩]⟩, MachineMetadata.mkDefault 0⟩

/-- Demo JSON state encoding for the witness codecs. -/
def encTStateJ : TState → Jv
  | .A => .str "A"
  | .B => .str "B"
  | .C => .str "C"

/-- Demo JSON state decoding for the witness codecs. -/
def decTStateJ : Jv → Option TState
  | .str "A" => some .A
  | .str "B" => some .B
  | .str "C" => some .C
  | _ => none

/-- Demo binary state encoding for the witness codecs. -/
def encTStateB : TState → List Nat
  | .A => [0]
  | .B => [1]
  | .C => [2]

/-- Demo binary state reader for the witness codecs. -/
def readTStateB : List Nat → Option (TState × List Nat)
  | 0 :: rest => some (.A, rest)
  | 1 :: rest => some (.B, rest)
  | 2 :: rest => some (.C, rest)
  | _ => none

/-! Helper lemmas -/

/-- A successful `find?` returns an element satisfying the predicate and,
more precisely, the first such element in order. -/
theorem find?_first_decomposition {α : Type} {p : α → Bool} {l : List α} {a : α}
    (h : l.find? p = some a) :
    p a = true ∧ ∃ l₁ l₂, l = l₁ ++ a :: l₂ ∧ ∀ x ∈ l₁, p x = false := by
  induction l with
  | nil => simp [List.find?] at h
  | cons b l ih =>
    cases hpb : p b with
    | true =>
      rw [List.find?_cons_of_pos _ hpb] at h
      obtain rfl : b = a := by injection h
      exact ⟨hpb, [], l, rfl, by simp⟩
    | false =>
      rw [List.find?_cons_of_neg _ (by simp [hpb])] at h
      obtain ⟨hpa, l₁, l₂, rfl, hall⟩ := ih h
      refine ⟨hpa, b :: l₁, l₂, rfl, ?_⟩
      intro x hx
      rcases List.mem_cons.mp hx with rfl | hx
      · exact hpb
      · exact hall x hx

/-- When the accumulated validation of a list succeeds, no element
contributed a failure. -/
theorem all_vec_success_failures {ε α : Type}
    {vs : List (Validation (List ε) α)} {xs : List α}
    (h : Validation.all_vec vs = .success xs) : failuresOf vs = [] := by
  induction vs generalizing xs with
  | nil => rfl
  | cons v vs ih =>
    cases v with
    | success x =>
      cases hrec : Validation.all_vec vs with
      | success ys =>
        simp [failuresOf, Validation.failures, List.foldr]
        exact ih hrec
      | failure es =>
        rw [Validation.all_vec, hrec] at h
        cases h
    | failure es =>
      rw [Validation.all_vec] at h
      cases hrec : Validation.all_vec vs <;> rw [hrec] at h <;> cases h

/-- When the accumulated validation of a list fails, the reported errors
are exactly the concatenation, in order, of every element's failures. -/
theorem all_vec_failure_eq {ε α : Type}
    {vs : List (Validation (List ε) α)} {es : List ε}
    (h : Validation.all_vec vs = .failure es) : es = failuresOf vs := by
  induction vs generalizing es with
  | nil => cases h
  | cons v vs ih =>
    cases v with
    | success x =>
      cases hrec : Validation.all_vec vs with
      | success ys => rw [Validation.all_vec, hrec] at h; cases h
      | failure es' =>
        rw [Validation.all_vec, hrec] at h
        cases h
        simp [failuresOf, Validation.failures, List.foldr]
        exact ih hrec
    | failure ev =>
      cases hrec : Validation.all_vec vs with
      | success ys =>
        rw [Validation.all_vec, hrec] at h
        cases h
        have : failuresOf vs = [] := all_vec_success_failures hrec
        simp [failuresOf, Validation.failures, List.foldr] at this ⊢
        simp [this]
      | failure es' =>
        rw [Validation.all_vec, hrec] at h
        cases h
        simp [failuresOf, Validation.failures, List.foldr]
        exact ih hrec

/-- When every element is well formed and none contributed a failure, the
accumulated validation succeeds. -/
theorem all_vec_success_of_no_failures {ε α : Type}
    {vs : List (Validation (List ε) α)}
    (hwf : ∀ v ∈ vs, v.wf) (h : failuresOf vs = []) :
    ∃ xs, Validation.all_vec vs = .success xs := by
  induction vs with
  | nil => exact ⟨[], rfl⟩
  | cons v vs ih =>
    have hv : v.failures = [] ∧ failuresOf vs = [] := by
      have : v.failures ++ failuresOf vs = [] := h
      exact List.append_eq_nil.mp this
    cases v with
    | success x =>
      obtain ⟨xs, hxs⟩ := ih (fun u hu => hwf u (List.mem_cons_of_mem _ hu)) hv.2
      refine ⟨x :: xs, ?_⟩
      rw [Validation.all_vec, hxs]
      rfl
    | failure ev =>
      have : ev ≠ [] := hwf _ (List.mem_cons_self _ _)
      exact absurd hv.1 this

/-- When some element contributed a failure, the accumulated validation
fails with exactly the concatenated failures. -/
theorem all_vec_failure_of_failures {ε α : Type}
    {vs : List (Validation (List ε) α)} (h : failuresOf vs ≠ []) :
    Validation.all_vec vs = .failure (failuresOf vs) := by
  cases hv : Validation.all_vec vs with
  | success xs => exact absurd (all_vec_success_failures hv) h
  | failure es => rw [all_vec_failure_eq hv]

/-- Failures concatenate over list append. -/
theorem failuresOf_append {ε α : Type} (a b : List (Validation (List ε) α)) :
    failuresOf (a ++ b) = failuresOf a ++ failuresOf b := by
  induction a with
  | nil => rfl
  | cons v a ih =>
    simp [failuresOf, List.foldr] at ih ⊢
    simp [ih]

/-! Claim theorems -/

/-- C1 counterexample: the claim asserts `get_path().len() == N + 1` for
every history, including `N = 0`, but for the empty history `get_path`
returns the empty path (the source only pushes an initial state when a
first transition exists), so its length is `0`, not `1`. -/
theorem get_path_empty_counterexample :
    (StateHistory.new : StateHistory TState).transitions.length = 0 ∧
    ¬ (StateHistory.new : StateHistory TState).get_path.length =
        (StateHistory.new : StateHistory TState).transitions.length + 1 := by
  exact ⟨rfl, by decide⟩

/-- C1 (amended): for every history with at least one recorded transition,
`get_path` returns the first transition's `from` state followed by each
transition's `to` state and has length `N + 1`; for the empty history the
path is empty. -/
theorem get_path_reconstruction {S : Type} (h : StateHistory S) :
    (h.transitions = [] → h.get_path = []) ∧
    (∀ t rest, h.transitions = t :: rest →
      h.get_path = t.from_ :: h.transitions.map (fun u => u.to_) ∧
      h.get_path.length = h.transitions.length + 1) := by
  constructor
  · intro he
    simp [StateHistory.get_path, he]
  · intro t rest he
    constructor
    · simp [StateHistory.get_path, he]
    · simp [StateHistory.get_path, he]

/-- C1 witness: the amended statement evaluated on concrete histories. -/
theorem get_path_reconstruction_witness :
    (StateHistory.new : StateHistory TState).get_path = [] ∧
    (⟨[⟨TState.A, TState.B, 5, 0⟩]⟩ : StateHistory TState).get_path =
        TState.A :: ([⟨TState.A, TState.B, 5, 0⟩] : List (StateTransition TState)).map
          (fun u => u.to_) ∧
    (⟨[⟨TState.A, TState.B, 5, 0⟩]⟩ : StateHistory TState).get_path.length =
        ([⟨TState.A, TState.B, 5, 0⟩] : List (StateTransition TState)).length + 1 := by
  refine ⟨(get_path_reconstruction StateHistory.new).1 rfl, ?_⟩
  exact (get_path_reconstruction ⟨[⟨TState.A, TState.B, 5, 0⟩]⟩).2
    ⟨TState.A, TState.B, 5, 0⟩ [] rfl

/-- C2: recording a transition produces a history whose sequence is the old
sequence followed by the new record; the receiver's own data survives
unchanged as the shared prefix (in the source `record` clones the vector,
never touching the receiver — the embedding is pure, so the old value is
intrinsically unaltered, and this theorem pins down the observable
content). -/
theorem record_appends {S : Type} (h : StateHistory S) (t : StateTransition S) :
    (h.record t).transitions = h.transitions ++ [t] ∧
    (h.record t).transitions.length = h.transitions.length + 1 ∧
    (h.record t).transitions.take h.transitions.length = h.transitions := by
  refine ⟨rfl, by simp [StateHistory.record], ?_⟩
  simp [StateHistory.record, List.take_left]

/-- C4: committing a `Transitioned(new_state)` result appends the record
`{from, to := new_state, attempt := the captured attempt count}` stamped
with the commit instant, sets the current state to the new state, resets
the attempt count to zero, and refreshes the metadata timestamp; the
concrete one-transition scenario (machine at A, single transition A to B
always succeeding) yields current state B, history of length one and the
record `{from := A, to := B, attempt := 0}` after one step-and-commit
cycle. -/
theorem transitioned_commit {S Env : Type} [State S] (m : StateMachine S Env)
    (from_state new_state : S) (attempt_count now : Nat) :
    ((m.apply_result from_state (.Transitioned new_state) attempt_count now).current
        = new_state ∧
      (m.apply_result from_state (.Transitioned new_state) attempt_count now).attempt_count
        = 0 ∧
      (m.apply_result from_state (.Transitioned new_state) attempt_count now).history.transitions
        = m.history.transitions ++ [⟨from_state, new_state, now, attempt_count⟩] ∧
      (m.apply_result from_state (.Transitioned new_state) attempt_count now).metadata.updated_at
        = now) ∧
    (mAB.step () = .ok (TState.A, .Transitioned TState.B, 0) ∧
      (mAB.step_and_apply () 7).1.current_state = TState.B ∧
      (mAB.step_and_apply () 7).1.history.transitions =
        [⟨TState.A, TState.B, 7, 0⟩]) := by
  exact ⟨⟨rfl, rfl, rfl, rfl⟩, ⟨rfl, rfl, rfl⟩⟩

/-- C5 counterexample: the claim asserts the attempt count resets to zero
on a committed abort, but committing `Aborted` leaves the attempt count
untouched — a machine that had already accumulated two attempts still
reports two after the abort commit. -/
theorem abort_attempt_reset_counterexample :
    ¬ (mTwoAttempts.apply_result TState.A
        (.Aborted "boom" TState.C) 2 0).attempt_count = 0 := by
  decide

/-- C5 (amended): the attempt count resets to zero on every committed
success, increments by one on every committed retry, and is left unchanged
by a committed abort; consequently a retrying machine observes attempt
counts 1, 2, ... across successive step-and-commit cycles while its
current state never changes. -/
theorem attempt_count_policy {S Env : Type} [State S] (m : StateMachine S Env)
    (from_state new_state error_state : S) (feedback reason : String)
    (n attempt_count now : Nat) :
    ((m.apply_result from_state (.Transitioned new_state) attempt_count now).attempt_count
        = 0 ∧
      (m.apply_result from_state (.Retry feedback n) attempt_count now).attempt_count
        = m.attempt_count + 1 ∧
      (m.apply_result from_state (.Aborted reason error_state) attempt_count now).attempt_count
        = m.attempt_count) ∧
    (mRetryDemo.step () = .ok (TState.A, .Retry "Not ready yet" 1, 0) ∧
      (mRetryDemo.step_and_apply () 0).1.attempt_count = 1 ∧
      (mRetryDemo.step_and_apply () 0).1.current_state = TState.A ∧
      (mRetryDemo.step_and_apply () 0).1.step () =
        .ok (TState.A, .Retry "Not ready yet" 2, 1) ∧
      ((mRetryDemo.step_and_apply () 0).1.step_and_apply () 0).1.attempt_count = 2 ∧
      ((mRetryDemo.step_and_apply () 0).1.step_and_apply () 0).1.current_state
        = TState.A) := by
  exact ⟨⟨rfl, rfl, rfl⟩, ⟨rfl, rfl, rfl, rfl, rfl, rfl⟩⟩

/-- C6: committing a retry changes only the attempt count — current state,
history, metadata, initial state and transition set are untouched — and
committing an abort changes only the current state (to the given error
state), leaving history, attempt count, metadata, initial state and
transition set untouched. -/
theorem retry_abort_frame {S Env : Type} [State S] (m : StateMachine S Env)
    (from_state error_state : S) (feedback reason : String)
    (n attempt_count now : Nat) :
    ((m.apply_result from_state (.Retry feedback n) attempt_count now).current
        = m.current ∧
      (m.apply_result from_state (.Retry feedback n) attempt_count now).history
        = m.history ∧
      (m.apply_result from_state (.Retry feedback n) attempt_count now).metadata
        = m.metadata ∧
      (m.apply_result from_state (.Retry feedback n) attempt_count now).initial
        = m.initial ∧
      (m.apply_result from_state (.Retry feedback n) attempt_count now).transitions
        = m.transitions ∧
      (m.apply_result from_state (.Retry feedback n) attempt_count now).attempt_count
        = m.attempt_count + 1) ∧
    ((m.apply_result from_state (.Aborted reason error_state) attempt_count now).current
        = error_state ∧
      (m.apply_result from_state (.Aborted reason error_state) attempt_count now).history
        = m.history ∧
      (m.apply_result from_state (.Aborted reason error_state) attempt_count now).attempt_count
        = m.attempt_count ∧
      (m.apply_result from_state (.Aborted reason error_state) attempt_count now).metadata
        = m.metadata ∧
      (m.apply_result from_state (.Aborted reason error_state) attempt_count now).initial
        = m.initial ∧
      (m.apply_result from_state (.Aborted reason error_state) attempt_count now).transitions
        = m.transitions) := by
  exact ⟨⟨rfl, rfl, rfl, rfl, rfl, rfl⟩, ⟨rfl, rfl, rfl, rfl, rfl, rfl⟩⟩

/-- C3: `step` selects the first transition in declaration order whose
`from` equals the current state and whose guard (if present) accepts the
current state; when no transition can execute, the step fails with
`NoTransition` carrying the current state's name and a step-and-commit
cycle leaves the machine value unchanged (in the source `step` takes
`&self`, so the machine is never mutated by a failing step); when a match
exists, the selected transition's action drives the step result. -/
theorem step_first_match {S Env : Type} [DecidableEq S] [State S]
    (m : StateMachine S Env) (env : Env) (now : Nat) :
    ((∀ t ∈ m.transitions, t.can_execute m.current = false) →
      m.step env = .error (.NoTransition (State.name m.current)) ∧
      (m.step_and_apply env now).1 = m) ∧
    (∀ t, m.transitions.find? (fun u => u.can_execute m.current) = some t →
      t.from_ = m.current ∧
      (∀ g, t.guard = some g → g.check m.current = true) ∧
      (∃ l₁ l₂, m.transitions = l₁ ++ t :: l₂ ∧
        ∀ u ∈ l₁, u.can_execute m.current = false) ∧
      m.step env = Except.map
        (fun result =>
          (m.current, classifyResult m.attempt_count result, m.attempt_count))
        (t.action () env)) := by
  constructor
  · intro hnone
    have hfind : m.transitions.find? (fun t => t.can_execute m.current) = none := by
      rw [List.find?_eq_none]
      intro t ht
      simp [hnone t ht]
    have hstep : m.step env = .error (.NoTransition (State.name m.current)) := by
      rw [StateMachine.step, hfind]
    refine ⟨hstep, ?_⟩
    rw [StateMachine.step_and_apply, hstep]
  · intro t hfind
    have hcan : t.can_execute m.current = true :=
      List.find?_some (p := fun u : Transition S Env => u.can_execute m.current) hfind
    have hfrom : t.from_ = m.current := by
      by_contra hne
      rw [Transition.can_execute] at hcan
      rw [if_pos (fun he => hne he.symm)] at hcan
      cases hcan
    have hguard : ∀ g, t.guard = some g → g.check m.current = true := by
      intro g hg
      rw [Transition.can_execute, if_neg (by simp [hfrom]), hg] at hcan
      exact hcan
    obtain ⟨_, l₁, l₂, hdecomp, hall⟩ := find?_first_decomposition hfind
    refine ⟨hfrom, hguard, ⟨l₁, l₂, hdecomp, hall⟩, ?_⟩
    rw [StateMachine.step, hfind]

/-- C3 witness: the theorem evaluated on a machine with no transitions
(no-match case) and on the demo machine with a matching transition. -/
theorem step_first_match_witness :
    ((StateMachine.new TState.A 0 : StateMachine TState Unit).step () =
        .error (.NoTransition "A") ∧
      ((StateMachine.new TState.A 0 : StateMachine TState Unit).step_and_apply () 0).1 =
        StateMachine.new TState.A 0) ∧
    (tAB.from_ = mAB.current ∧
      mAB.step () = Except.map
        (fun result =>
          (mAB.current, classifyResult mAB.attempt_count result, mAB.attempt_count))
        (tAB.action () ())) := by
  constructor
  · exact (step_first_match (StateMachine.new TState.A 0) () 0).1 (by intro t ht; cases ht)
  · have h := (step_first_match mAB () 0).2 tAB rfl
    exact ⟨h.1, h.2.2.2⟩

/-- C7: `enforce` evaluates every configured rule without failing fast: it
succeeds exactly when no violation occurred, and otherwise reports the
complete non-empty violation list in declaration order (built-in
max-attempts check, then timeout check, then custom checks in registration
order); in the concrete scenario (max_attempts 3, timeout 5 ticks, one
always-failing custom check, attempt 5, elapsed 10 ticks) it reports
exactly the three violations. The hypothesis states what `NonEmptyVec`
guarantees in the source: a failing custom check carries at least one
error. -/
theorem enforce_accumulates_all {S : Type} (r : EnforcementRules S)
    (ctx : TransitionContext S) (now : Nat)
    (hwf : ∀ chk ∈ r.required_checks, (chk ctx).wf) :
    (r.enforce ctx now = .success () ↔ declaredViolations r ctx now = []) ∧
    (declaredViolations r ctx now ≠ [] →
      r.enforce ctx now = .failure (declaredViolations r ctx now)) ∧
    scenarioRules.enforce scenarioCtx 10 =
      .failure [.MaxAttemptsExceeded 3 5, .TimeoutExceeded 5 10,
                .CustomCheckFailed "Custom check always fails"] ∧
    ([ViolationError.MaxAttemptsExceeded 3 5, .TimeoutExceeded 5 10,
      .CustomCheckFailed "Custom check always fails"] : List ViolationError).length
        = 3 := by
  have hfo : failuresOf (enforceChecks r ctx now) = declaredViolations r ctx now := by
    rw [enforceChecks, declaredViolations]
    cases hm : r.max_attempts <;> cases ht : r.timeout <;>
      simp only [failuresOf_append] <;>
      (try split_ifs) <;>
      simp [failuresOf, Validation.fail, Validation.failures]
  have hwfall : ∀ v ∈ enforceChecks r ctx now, v.wf := by
    intro v hv
    rw [enforceChecks] at hv
    rcases List.mem_append.mp hv with hv | hv
    · rcases List.mem_append.mp hv with hv | hv
      · cases hm : r.max_attempts with
        | none => rw [hm] at hv; cases hv
        | some max =>
          rw [hm] at hv
          rcases List.mem_singleton.mp hv with rfl
          by_cases hc : ctx.attempt > max
          · simp [hc, Validation.fail, Validation.wf]
          · simp [hc, Validation.wf]
      · cases hm : r.timeout with
        | none => rw [hm] at hv; cases hv
        | some timeout =>
          rw [hm] at hv
          rcases List.mem_singleton.mp hv with rfl
          by_cases hc : ctx.elapsed now > timeout
          · simp [hc, Validation.fail, Validation.wf]
          · simp [hc, Validation.wf]
    · obtain ⟨chk, hchk, rfl⟩ := List.mem_map.mp hv
      exact hwf chk hchk
  refine ⟨?_, ?_, ?_, rfl⟩
  · constructor
    · intro hsucc
      rw [EnforcementRules.enforce] at hsucc
      cases hv : Validation.all_vec (enforceChecks r ctx now) with
      | success xs => rw [← hfo]; exact all_vec_success_failures hv
      | failure es => rw [hv] at hsucc; cases hsucc
    · intro hnil
      rw [← hfo] at hnil
      obtain ⟨xs, hxs⟩ := all_vec_success_of_no_failures hwfall hnil
      rw [EnforcementRules.enforce, hxs]
      rfl
  · intro hne
    rw [← hfo] at hne
    have := all_vec_failure_of_failures hne
    rw [EnforcementRules.enforce, this, hfo]
    rfl
  · rfl

/-- C7 witness: the theorem applied to the concrete scenario, with the
non-empty-failure hypothesis discharged on the single custom check. -/
theorem enforce_accumulates_all_witness :
    scenarioRules.enforce scenarioCtx 10 =
      .failure (declaredViolations scenarioRules scenarioCtx 10) := by
  refine (enforce_accumulates_all scenarioRules scenarioCtx 10 ?_).2.1 ?_
  · intro chk hchk
    rcases List.mem_singleton.mp hchk with rfl
    simp [Validation.fail, Validation.wf]
  · simp [declaredViolations, scenarioRules, scenarioCtx, TransitionContext.elapsed,
          failuresOf, Validation.fail, Validation.failures]

/-- C8: `from_checkpoint` fails with `UnsupportedVersion{found, supported}`
exactly when the snapshot version is strictly greater than the supported
`CHECKPOINT_VERSION = 1` (failure produces no machine, hence no partial
mutation); otherwise it returns a machine whose initial, current, history
and metadata come verbatim from the checkpoint, with the caller-supplied
transitions and a zero attempt count. -/
theorem from_checkpoint_version_check {S Env : Type} (cp : Checkpoint S)
    (ts : List (Transition S Env)) :
    (cp.version > CHECKPOINT_VERSION →
      StateMachine.from_checkpoint cp ts =
        .error (.UnsupportedVersion cp.version CHECKPOINT_VERSION)) ∧
    (cp.version ≤ CHECKPOINT_VERSION →
      StateMachine.from_checkpoint cp ts =
        .ok ⟨cp.initial_state, cp.current_state, ts, cp.history, 0, cp.metadata⟩) := by
  constructor
  · intro h
    rw [StateMachine.from_checkpoint, if_pos h]
  · intro h
    rw [StateMachine.from_checkpoint, if_neg (by omega)]

/-- C8 witness: the theorem evaluated on a version-999 checkpoint (which is
rejected) and on a current-version checkpoint (which restores verbatim). -/
theorem from_checkpoint_version_check_witness :
    StateMachine.from_checkpoint cpNewer ([] : List (Transition TState Unit)) =
      .error (.UnsupportedVersion 999 CHECKPOINT_VERSION) ∧
    StateMachine.from_checkpoint cpCurrent ([] : List (Transition TState Unit)) =
      .ok ⟨cpCurrent.initial_state, cpCurrent.current_state, [],
           cpCurrent.history, 0, cpCurrent.metadata⟩ := by
  constructor
  · exact (from_checkpoint_version_check cpNewer []).1 (by decide)
  · exact (from_checkpoint_version_check cpCurrent []).2 (by decide)

/-- C10: the engine's stepping interface never produces a `GuardBlocked`
error: a transition whose guard rejects the current state is simply
non-matching (second conjunct), and provided no caller-supplied action
itself fails with `GuardBlocked` (the engine's own code never constructs
that variant), the step effect never fails with `GuardBlocked` — its only
engine-generated error is `NoTransition`. -/
theorem step_never_guard_blocked {S Env : Type} [DecidableEq S] [State S]
    (m : StateMachine S Env) (env : Env)
    (hact : ∀ t ∈ m.transitions, ∀ f₁ f₂,
      t.action () env ≠ .error (.GuardBlocked f₁ f₂)) :
    (∀ f₁ f₂, m.step env ≠ .error (.GuardBlocked f₁ f₂)) ∧
    (∀ (t : Transition S Env) (g : Guard S), t.guard = some g →
      g.check m.current = false → t.can_execute m.current = false) := by
  constructor
  · intro f₁ f₂ hstep
    cases hfind : m.transitions.find? (fun t => t.can_execute m.current) with
    | none =>
      simp only [StateMachine.step, hfind] at hstep
      cases hstep
    | some t =>
      simp only [StateMachine.step, hfind] at hstep
      cases hrun : t.action () env with
      | error e =>
        rw [hrun] at hstep
        simp only [Except.map] at hstep
        obtain rfl : e = .GuardBlocked f₁ f₂ := by injection hstep
        exact hact t (List.mem_of_find?_eq_some hfind) f₁ f₂ hrun
      | ok result =>
        rw [hrun] at hstep
        simp only [Except.map] at hstep
        cases hstep
  · intro t g hg hc
    rw [Transition.can_execute]
    by_cases hfrom : m.current = t.from_
    · rw [if_neg (by simp [hfrom]), hg]
      exact hc
    · rw [if_pos hfrom]

/-- C10 witness: the theorem applied to the demo machine, whose single
action always returns a success and therefore never fails at all. -/
theorem step_never_guard_blocked_witness :
    mAB.step () ≠ .error (.GuardBlocked "A" "B") := by
  refine (step_never_guard_blocked mAB () ?_).1 "A" "B"
  intro t ht f₁ f₂
  have : t = tAB := by
    rcases List.mem_singleton.mp ht with rfl
    rfl
  rw [this]
  intro hcontra
  cases hcontra

/-! Round-trip lemmas for the text (JSON) codec -/

/-- Decoding inverts encoding for one history record. -/
theorem decodeTransitionJ_enc {S : Type} (encS : S → Jv) (decS : Jv → Option S)
    (hS : ∀ s, decS (encS s) = some s) (t : StateTransition S) :
    decodeTransitionJ decS (encodeTransitionJ encS t) = some t := by
  simp [encodeTransitionJ, decodeTransitionJ, hS]

/-- Decoding inverts encoding for a list of history records. -/
theorem decodeTransitionListJ_enc {S : Type} (encS : S → Jv) (decS : Jv → Option S)
    (hS : ∀ s, decS (encS s) = some s) (ts : List (StateTransition S)) :
    decodeTransitionListJ decS (ts.map (encodeTransitionJ encS)) = some ts := by
  induction ts with
  | nil => rfl
  | cons t ts ih =>
    simp [decodeTransitionListJ, decodeTransitionJ_enc encS decS hS, ih]

/-- Decoding inverts encoding for a history. -/
theorem decodeHistoryJ_enc {S : Type} (encS : S → Jv) (decS : Jv → Option S)
    (hS : ∀ s, decS (encS s) = some s) (h : StateHistory S) :
    decodeHistoryJ decS (encodeHistoryJ encS h) = some h := by
  cases h
  simp [encodeHistoryJ, decodeHistoryJ, decodeTransitionListJ_enc encS decS hS]

/-- Decoding inverts encoding for the attempt-totals entries. -/
theorem decodeTotalsEntries_enc (l : List (String × Nat)) :
    decodeTotalsEntries (l.map (fun p => (p.1, Jv.num p.2))) = some l := by
  induction l with
  | nil => rfl
  | cons p l ih =>
    cases p
    simp [decodeTotalsEntries, ih]

/-- Decoding inverts encoding for the attempt-totals map. -/
theorem decodeTotalsJ_enc (l : List (String × Nat)) :
    decodeTotalsJ (encodeTotalsJ l) = some l := by
  simp [encodeTotalsJ, decodeTotalsJ, decodeTotalsEntries_enc]

/-- Decoding inverts encoding for machine metadata. -/
theorem decodeMetadataJ_enc (md : MachineMetadata) :
    decodeMetadataJ (encodeMetadataJ md) = some md := by
  cases md
  simp [encodeMetadataJ, decodeMetadataJ, decodeTotalsJ_enc]

/-- Decoding inverts encoding for a whole checkpoint document. -/
theorem decodeCheckpointJ_enc {S : Type} (encS : S → Jv) (decS : Jv → Option S)
    (hS : ∀ s, decS (encS s) = some s) (cp : Checkpoint S) :
    decodeCheckpointJ decS (encodeCheckpointJ encS cp) = some cp := by
  cases cp
  simp [encodeCheckpointJ, decodeCheckpointJ, hS,
        decodeHistoryJ_enc encS decS hS, decodeMetadataJ_enc]

/-! Round-trip lemmas for the binary codec -/

/-- Reading inverts writing for a length-prefixed string. -/
theorem readString_enc (s : String) (rest : List Nat) :
    readString (encString s ++ rest) = some (s, rest) := by
  obtain ⟨cs⟩ := s
  have hlen : (cs.map Char.toNat).length = cs.length := List.length_map cs Char.toNat
  rw [encString]
  show readString (cs.length :: (cs.map Char.toNat ++ rest)) = some (⟨cs⟩, rest)
  have hle : cs.length ≤ (cs.map Char.toNat ++ rest).length := by
    rw [List.length_append, hlen]
    omega
  simp only [readString, readNat]
  rw [if_pos hle]
  have htake : (cs.map Char.toNat ++ rest).take cs.length = cs.map Char.toNat := by
    rw [← hlen]
    exact List.take_left _ _
  have hdrop : (cs.map Char.toNat ++ rest).drop cs.length = rest := by
    rw [← hlen]
    exact List.drop_left _ _
  rw [htake, hdrop, List.map_map]
  have hid : (Char.ofNat ∘ Char.toNat) = id := funext (fun c => Char.ofNat_toNat c)
  rw [hid, List.map_id]

/-- Reading inverts writing for a known count of records. -/
theorem readCount_enc {α : Type} (read1 : List Nat → Option (α × List Nat))
    (enc1 : α → List Nat)
    (h1 : ∀ x rest, read1 (enc1 x ++ rest) = some (x, rest))
    (xs : List α) (rest : List Nat) :
    readCount read1 xs.length (encListBody enc1 xs ++ rest) = some (xs, rest) := by
  induction xs with
  | nil => rfl
  | cons x xs ih =>
    show readCount read1 (xs.length + 1)
        ((enc1 x ++ encListBody enc1 xs) ++ rest) = some (x :: xs, rest)
    rw [List.append_assoc]
    simp only [readCount, h1, ih]

/-- Reading inverts writing for a count-prefixed list. -/
theorem readListB_enc {α : Type} (read1 : List Nat → Option (α × List Nat))
    (enc1 : α → List Nat)
    (h1 : ∀ x rest, read1 (enc1 x ++ rest) = some (x, rest))
    (xs : List α) (rest : List Nat) :
    readListB read1 (encListB enc1 xs ++ rest) = some (xs, rest) := by
  show readListB read1 (xs.length :: (encListBody enc1 xs ++ rest)) = some (xs, rest)
  simp only [readListB, readNat, readCount_enc read1 enc1 h1]

/-- Reading inverts writing for one history record. -/
theorem readTransitionB_enc {S : Type} (readS : List Nat → Option (S × List Nat))
    (encB : S → List Nat)
    (hS : ∀ s rest, readS (encB s ++ rest) = some (s, rest))
    (t : StateTransition S) (rest : List Nat) :
    readTransitionB readS (encTransitionB encB t ++ rest) = some (t, rest) := by
  rw [encTransitionB]
  rw [show encB t.from_ ++ encB t.to_ ++ [t.timestamp, t.attempt] ++ rest =
      encB t.from_ ++ (encB t.to_ ++ (t.timestamp :: t.attempt :: rest)) by
    simp [List.append_assoc]]
  simp only [readTransitionB, hS, readNat]

/-- Reading inverts writing for one attempt-totals entry. -/
theorem readTotalB_enc (p : String × Nat) (rest : List Nat) :
    readTotalB (encTotalB p ++ rest) = some (p, rest) := by
  rw [encTotalB]
  rw [show encString p.1 ++ [p.2] ++ rest = encString p.1 ++ (p.2 :: rest) by
    simp [List.append_assoc]]
  simp only [readTotalB, readString_enc, readNat]

/-- Reading inverts writing for machine metadata. -/
theorem readMetadataB_enc (md : MachineMetadata) (rest : List Nat) :
    readMetadataB (encMetadataB md ++ rest) = some (md, rest) := by
  rw [encMetadataB]
  rw [show [md.created_at, md.updated_at, md.current_attempt] ++
        encListB encTotalB md.total_attempts ++ rest =
      md.created_at :: md.updated_at :: md.current_attempt ::
        (encListB encTotalB md.total_attempts ++ rest) by
    simp [List.append_assoc]]
  simp only [readMetadataB, readNat,
      readListB_enc readTotalB encTotalB readTotalB_enc]

/-- Reading inverts writing for a whole checkpoint stream. -/
theorem readCheckpointB_enc {S : Type} (readS : List Nat → Option (S × List Nat))
    (encB : S → List Nat)
    (hS : ∀ s rest, readS (encB s ++ rest) = some (s, rest))
    (cp : Checkpoint S) (rest : List Nat) :
    readCheckpointB readS (encCheckpointB encB cp ++ rest) = some (cp, rest) := by
  rw [encCheckpointB]
  rw [show (cp.version :: encString cp.id ++ [cp.timestamp] ++
        encB cp.initial_state ++ encB cp.current_state ++
        encListB (encTransitionB encB) cp.history.transitions ++
        encMetadataB cp.metadata) ++ rest =
      cp.version :: (encString cp.id ++ (cp.timestamp ::
        (encB cp.initial_state ++ (encB cp.current_state ++
        (encListB (encTransitionB encB) cp.history.transitions ++
        (encMetadataB cp.metadata ++ rest)))))) by
    simp [List.append_assoc]]
  simp only [readCheckpointB, readNat, readString_enc, hS,
      readListB_enc _ _ (readTransitionB_enc readS encB hS),
      readMetadataB_enc]

/-- C9: checkpoint round-trip through both wire forms: for any machine,
deserializing its serialized form with the same transitions succeeds via
the text codec and via the binary codec, and each restored machine has the
same current state and a history of the same length whose records agree
field by field (from, to, attempt) in order — indeed the entire history is
recovered verbatim. The two hypotheses state the serde contract for the
state type's own codec: decoding inverts encoding. -/
theorem checkpoint_roundtrip {S Env : Type} (m : StateMachine S Env)
    (id : String) (now : Nat) (ts : List (Transition S Env))
    (encS : S → Jv) (decS : Jv → Option S)
    (encB : S → List Nat) (readS : List Nat → Option (S × List Nat))
    (hJ : ∀ s, decS (encS s) = some s)
    (hB : ∀ s rest, readS (encB s ++ rest) = some (s, rest)) :
    (∃ mj, StateMachine.from_json decS (StateMachine.to_json encS m id now) ts =
        .ok mj ∧
      mj.current_state = m.current_state ∧
      mj.history.transitions.length = m.history.transitions.length ∧
      mj.history.transitions.map (fun t => (t.from_, t.to_, t.attempt)) =
        m.history.transitions.map (fun t => (t.from_, t.to_, t.attempt))) ∧
    (∃ mb, StateMachine.from_binary readS (StateMachine.to_binary encB m id now) ts =
        .ok mb ∧
      mb.current_state = m.current_state ∧
      mb.history.transitions.length = m.history.transitions.length ∧
      mb.history.transitions.map (fun t => (t.from_, t.to_, t.attempt)) =
        m.history.transitions.map (fun t => (t.from_, t.to_, t.attempt))) := by
  constructor
  · refine ⟨⟨m.initial, m.current, ts, m.history, 0, m.metadata⟩, ?_, rfl, rfl, rfl⟩
    rw [StateMachine.from_json, StateMachine.to_json,
        decodeCheckpointJ_enc encS decS hJ (m.checkpoint id now)]
    rfl
  · refine ⟨⟨m.initial, m.current, ts, m.history, 0, m.metadata⟩, ?_, rfl, rfl, rfl⟩
    rw [StateMachine.from_binary, StateMachine.to_binary]
    rw [show encCheckpointB encB (m.checkpoint id now) =
        encCheckpointB encB (m.checkpoint id now) ++ [] by simp]
    rw [readCheckpointB_enc readS encB hB (m.checkpoint id now) []]
    rfl

/-- C9 witness: the round trip evaluated on the demo machine after one
committed transition (non-empty history), with concrete state codecs whose
inversion hypotheses are discharged by case analysis. -/
theorem checkpoint_roundtrip_witness :
    (∃ mj, StateMachine.from_json decTStateJ
        (StateMachine.to_json encTStateJ (mAB.step_and_apply () 7).1 "cp-id" 9)
        [tAB] = .ok mj ∧
      mj.current_state = (mAB.step_and_apply () 7).1.current_state ∧
      mj.history.transitions.length =
        (mAB.step_and_apply () 7).1.history.transitions.length ∧
      mj.history.transitions.map (fun t => (t.from_, t.to_, t.attempt)) =
        (mAB.step_and_apply () 7).1.history.transitions.map
          (fun t => (t.from_, t.to_, t.attempt))) ∧
    (∃ mb, StateMachine.from_binary readTStateB
        (StateMachine.to_binary encTStateB (mAB.step_and_apply () 7).1 "cp-id" 9)
        [tAB] = .ok mb ∧
      mb.current_state = (mAB.step_and_apply () 7).1.current_state ∧
      mb.history.transitions.length =
        (mAB.step_and_apply () 7).1.history.transitions.length ∧
      mb.history.transitions.map (fun t => (t.from_, t.to_, t.attempt)) =
        (mAB.step_and_apply () 7).1.history.transitions.map
          (fun t => (t.from_, t.to_, t.attempt))) := by
  refine checkpoint_roundtrip (mAB.step_and_apply () 7).1 "cp-id" 9 [tAB]
    encTStateJ decTStateJ encTStateB readTStateB ?_ ?_
  · intro s
    cases s <;> rfl
  · intro s rest
    cases s <;> rfl

end Mindset
